import Mathlib

/-!
# Verification of the pdf-chef layout engine

Shallow embedding of the recipe-PDF builder's layout core, translated
from the Python sources:

* `src/page_builder.py` — `PageBuilder._measure_text_block` (greedy word
  wrapping) and `PageBuilder.draw_text` (block rendering and cursor
  update);
* `src/mobile_recipe_build.py` — `RecipePDFBuilder` (cover image, text
  block with palette cycling, section dispatch);
* `src/config_manager.py` — the pydantic schema checked by
  `ConfigManager.load_config_file`.

Conventions of the embedding:

* Python `float` becomes `ℚ` (the layout arithmetic is exact field
  arithmetic; no rounding occurs in the source).
* Python `str` becomes `List Char`, so that splitting and stripping can
  be reasoned about by list induction.
* The external text-metrics provider `canvas.stringWidth(line,
  font_name, font_size)` (reportlab) becomes an abstract parameter
  `width : List Char → ℚ`; a font name and size determine one such
  function, so quantifying over `width` quantifies over fonts and sizes.
-/

/-! ## Python string primitives

`str.split()` (no argument): split on runs of whitespace, discarding
empty pieces.  `str.strip()` (no argument): drop leading and trailing
whitespace. -/

/-- One character of Python whitespace (the characters relevant here). -/
def pyIsWs (c : Char) : Bool := c.isWhitespace

/-- Accumulator form of `str.split()`: `acc` holds the characters of the
word currently being read, in reverse order. -/
def splitAux : List Char → List Char → List (List Char)
  | [], acc => if acc = [] then [] else [acc.reverse]
  | c :: cs, acc =>
    if pyIsWs c then
      if acc = [] then splitAux cs [] else acc.reverse :: splitAux cs []
    else
      splitAux cs (c :: acc)

/-- Python `text.split()`: the whitespace-separated words of `text`. -/
def pySplit (s : List Char) : List (List Char) := splitAux s []

/-- Python `s.strip()`: drop leading and trailing whitespace. -/
def pyStrip (s : List Char) : List Char :=
  ((s.dropWhile pyIsWs).reverse.dropWhile pyIsWs).reverse

/-- A word free of whitespace characters (true of every piece returned
by `pySplit`). -/
def wsFree (w : List Char) : Bool := w.all fun c => !pyIsWs c

/-- The first character, if any, is not whitespace. -/
def headOk (l : List Char) : Bool :=
  match l with
  | [] => true
  | c :: _ => !pyIsWs c

/-! ## The line wrapper

`PageBuilder._measure_text_block`, `src/page_builder.py` lines 107-121:

```python
words = text.split()
current_line = ""
lines = []
for word in words:
    line = f"{current_line} {word}".strip()
    line_width = self.canvas.stringWidth(line, font_name, font_size)
    if line_width <= max_line_width:
        current_line = line
    else:
        lines.append(current_line)
        current_line = word
if current_line:
    lines.append(current_line)
```
-/

/-- The loop body of `_measure_text_block`, recursing over the word
list with the running `current_line` (the Python local `line` is the
candidate `pyStrip (cur ++ ' ' :: w)`, written out at both uses). -/
def wrapCore (width : List Char → ℚ) (maxW : ℚ) :
    List (List Char) → List Char → List (List Char)
  | [], cur => if cur = [] then [] else [cur]
  | w :: ws, cur =>
    if width (pyStrip (cur ++ ' ' :: w)) ≤ maxW then
      wrapCore width maxW ws (pyStrip (cur ++ ' ' :: w))
    else
      cur :: wrapCore width maxW ws w

/-- The wrapped lines computed by `_measure_text_block`. -/
def wrapLines (width : List Char → ℚ) (maxW : ℚ) (text : List Char) :
    List (List Char) :=
  wrapCore width maxW (pySplit text) []

/-- Lines joined by single spaces (how the wrapper's output is compared
with the whitespace-normalized input). -/
def spaceJoin : List (List Char) → List Char
  | [] => []
  | [w] => w
  | w :: x :: ws => w ++ ' ' :: spaceJoin (x :: ws)

/-! ### Facts about `pySplit` -/

theorem splitAux_mem (s : List Char) (acc : List Char)
    (hacc : ∀ c ∈ acc, pyIsWs c = false) :
    ∀ w ∈ splitAux s acc, w ≠ [] ∧ wsFree w = true := by
  induction s generalizing acc with
  | nil =>
    intro w hw
    simp only [splitAux] at hw
    split at hw
    · simp at hw
    · next hne =>
      simp only [List.mem_singleton] at hw
      subst hw
      refine ⟨by simpa using hne, ?_⟩
      simp only [wsFree, List.all_eq_true, List.mem_reverse]
      intro c hc
      simp [hacc c hc]
  | cons c cs ih =>
    intro w hw
    simp only [splitAux] at hw
    by_cases hc : pyIsWs c
    · simp only [hc, if_true] at hw
      split at hw
      · exact ih [] (by simp) w hw
      · next hne =>
        rcases List.mem_cons.mp hw with h | h
        · subst h
          refine ⟨by simpa using hne, ?_⟩
          simp only [wsFree, List.all_eq_true, List.mem_reverse]
          intro d hd
          simp [hacc d hd]
        · exact ih [] (by simp) w h
    · simp only [hc, if_false] at hw
      refine ih (c :: acc) ?_ w hw
      intro d hd
      rcases List.mem_cons.mp hd with h | h
      · subst h; simpa using hc
      · exact hacc d h

theorem pySplit_mem (s : List Char) :
    ∀ w ∈ pySplit s, w ≠ [] ∧ wsFree w = true :=
  splitAux_mem s [] (by simp)

/-! ### Facts about `pyStrip` -/

theorem dropWhile_of_headOk (l : List Char) (h : headOk l = true) :
    l.dropWhile pyIsWs = l := by
  cases l with
  | nil => rfl
  | cons c cs =>
    simp only [headOk, Bool.not_eq_true'] at h
    simp [List.dropWhile_cons, h]

theorem wsFree_reverse (l : List Char) : wsFree l.reverse = wsFree l := by
  simp [wsFree, List.all_eq_true, List.mem_reverse]

theorem headOk_of_wsFree (l : List Char) (h : wsFree l = true) :
    headOk l = true := by
  cases l with
  | nil => rfl
  | cons c cs =>
    simp only [wsFree, List.all_cons, Bool.and_eq_true] at h
    simp [headOk, h.1]

theorem headOk_append (l r : List Char) (hne : l ≠ [])
    (h : headOk l = true) : headOk (l ++ r) = true := by
  cases l with
  | nil => exact absurd rfl hne
  | cons c cs => simpa [headOk] using h

theorem pyStrip_of_clean (l : List Char) (h1 : headOk l = true)
    (h2 : headOk l.reverse = true) : pyStrip l = l := by
  simp [pyStrip, dropWhile_of_headOk _ h1, dropWhile_of_headOk _ h2]

/-- The stripped candidate line built from `current_line` and the next
word: the word itself when the candidate is empty, otherwise the
candidate, a space, and the word. -/
theorem pyStrip_join (cur w : List Char) (hcur : headOk cur = true)
    (hw : wsFree w = true) (hwne : w ≠ []) :
    pyStrip (cur ++ ' ' :: w) =
      if cur = [] then w else cur ++ ' ' :: w := by
  have hwrev : headOk w.reverse = true :=
    headOk_of_wsFree _ (by rwa [wsFree_reverse])
  cases cur with
  | nil =>
    simp only [List.nil_append, if_pos rfl]
    have hdw : (' ' :: w).dropWhile pyIsWs = w := by
      have : pyIsWs ' ' = true := by decide
      simp [List.dropWhile_cons, this, dropWhile_of_headOk w (headOk_of_wsFree w hw)]
    simp [pyStrip, hdw, dropWhile_of_headOk _ hwrev]
  | cons c cs =>
    simp only [if_neg (by simp : (c :: cs : List Char) ≠ [])]
    have hhead : headOk (c :: cs ++ ' ' :: w) = true :=
      headOk_append _ _ (by simp) hcur
    have hrev : headOk (c :: cs ++ ' ' :: w).reverse = true := by
      have hrw : (c :: cs ++ ' ' :: w).reverse
          = w.reverse ++ (' ' :: (c :: cs).reverse) := by
        rw [show (c :: cs ++ ' ' :: w) = (c :: cs) ++ (' ' :: w) from rfl,
          List.reverse_append, List.reverse_cons, List.append_assoc,
          List.singleton_append]
      rw [hrw]
      exact headOk_append _ _ (by simpa using hwne) hwrev
    exact pyStrip_of_clean _ hhead hrev

/-! ### The wrapper reassembles the words -/

theorem spaceJoin_merge (a b : List Char) (rest : List (List Char)) :
    spaceJoin ((a ++ ' ' :: b) :: rest) = a ++ ' ' :: spaceJoin (b :: rest) := by
  cases rest with
  | nil => simp [spaceJoin]
  | cons r rs => simp [spaceJoin, List.append_assoc]

theorem wrapCore_ne_nil (width : List Char → ℚ) (maxW : ℚ)
    (ws : List (List Char)) (cur : List Char)
    (hws : ∀ w ∈ ws, w ≠ [] ∧ wsFree w = true)
    (hcur : cur ≠ []) (hh : headOk cur = true) :
    wrapCore width maxW ws cur ≠ [] := by
  induction ws generalizing cur with
  | nil => simp [wrapCore, hcur]
  | cons w ws ih =>
    have hw := hws w (List.mem_cons_self _ _)
    have hws' : ∀ x ∈ ws, x ≠ [] ∧ wsFree x = true :=
      fun x hx => hws x (List.mem_cons_of_mem _ hx)
    simp only [wrapCore]
    rw [pyStrip_join cur w hh hw.2 hw.1, if_neg hcur]
    split
    · exact ih (cur ++ ' ' :: w) hws' (by simp [hcur]) (headOk_append _ _ hcur hh)
    · simp

theorem wrapCore_join (width : List Char → ℚ) (maxW : ℚ)
    (ws : List (List Char)) (cur : List Char)
    (hws : ∀ w ∈ ws, w ≠ [] ∧ wsFree w = true)
    (hcur : cur ≠ []) (hh : headOk cur = true) :
    spaceJoin (wrapCore width maxW ws cur) = spaceJoin (cur :: ws) := by
  induction ws generalizing cur with
  | nil => simp [wrapCore, hcur]
  | cons w ws ih =>
    have hw := hws w (List.mem_cons_self _ _)
    have hws' : ∀ x ∈ ws, x ≠ [] ∧ wsFree x = true :=
      fun x hx => hws x (List.mem_cons_of_mem _ hx)
    simp only [wrapCore]
    rw [pyStrip_join cur w hh hw.2 hw.1, if_neg hcur]
    split
    · rw [ih (cur ++ ' ' :: w) hws' (by simp [hcur]) (headOk_append _ _ hcur hh),
        spaceJoin_merge]
      rfl
    · have hrest := ih w hws' hw.1 (headOk_of_wsFree _ hw.2)
      have hnn : wrapCore width maxW ws w ≠ [] :=
        wrapCore_ne_nil width maxW ws w hws' hw.1 (headOk_of_wsFree _ hw.2)
      cases hcase : wrapCore width maxW ws w with
      | nil => exact absurd hcase hnn
      | cons r rs =>
        rw [hcase] at hrest
        simp only [spaceJoin]
        rw [hrest]

/-! ### `pySplit` undoes `spaceJoin` on whitespace-free words -/

theorem splitAux_word (w r acc : List Char) (hw : wsFree w = true) :
    splitAux (w ++ r) acc = splitAux r (w.reverse ++ acc) := by
  induction w generalizing acc with
  | nil => simp
  | cons c cs ih =>
    simp only [wsFree, List.all_cons, Bool.and_eq_true] at hw
    simp only [List.cons_append, splitAux]
    rw [if_neg (by simpa using hw.1)]
    show splitAux (cs ++ r) (c :: acc) = splitAux r ((c :: cs).reverse ++ acc)
    rw [ih (c :: acc) hw.2]
    simp [List.append_assoc]

theorem pySplit_cons_space (l : List Char) : pySplit (' ' :: l) = pySplit l := by
  simp [pySplit, splitAux, show pyIsWs ' ' = true from by decide]

theorem pySplit_spaceJoin (ws : List (List Char))
    (hws : ∀ w ∈ ws, w ≠ [] ∧ wsFree w = true) :
    pySplit (spaceJoin ws) = ws := by
  induction ws with
  | nil => rfl
  | cons w ws ih =>
    have hw := hws w (List.mem_cons_self _ _)
    have hws' : ∀ x ∈ ws, x ≠ [] ∧ wsFree x = true :=
      fun x hx => hws x (List.mem_cons_of_mem _ hx)
    cases ws with
    | nil =>
      have h1 := splitAux_word w [] [] hw.2
      simp only [List.append_nil] at h1
      show splitAux w [] = [w]
      rw [h1]
      simp only [splitAux]
      rw [if_neg (by simpa using hw.1)]
      simp
    | cons x xs =>
      show splitAux (spaceJoin (w :: x :: xs)) [] = w :: x :: xs
      rw [show spaceJoin (w :: x :: xs) = w ++ ' ' :: spaceJoin (x :: xs) from rfl]
      have h1 := splitAux_word w (' ' :: spaceJoin (x :: xs)) [] hw.2
      simp only [List.append_nil] at h1
      rw [h1]
      simp only [splitAux, show pyIsWs ' ' = true from by decide, if_true]
      rw [if_neg (by simpa using hw.1)]
      simp only [List.reverse_reverse]
      exact congrArg (w :: ·) (ih hws')

/-! ## Claim C1: joining the wrapped lines -/

/-- The extra output the wrapper emits in front of the words: when the
very first word already exceeds `maxW`, the loop commits the empty
`current_line`, so the joined output gains a leading space. -/
def wrapLeadPad (width : List Char → ℚ) (maxW : ℚ) (text : List Char) :
    List Char :=
  match pySplit text with
  | [] => []
  | w :: _ => if width w ≤ maxW then [] else [' ']

/-- C1 counterexample: with metrics `width = length` and `max_width = 1`,
the single word `"ab"` is wider than the limit, the wrapper emits an
empty first line, and joining the lines with single spaces yields
`" ab"`, not the whitespace-normalized input `"ab"`. -/
theorem wrap_join_leading_space_cex :
    spaceJoin (wrapLines (fun s => (s.length : ℚ)) 1 "ab".data)
      ≠ spaceJoin (pySplit "ab".data) := by decide

/-- C1 (amended): empty input wraps to the empty line sequence; joining
the wrapped lines with single spaces reproduces the whitespace-normalized
input up to one leading space, present exactly when the first word alone
exceeds `max_width`; in particular splitting the joined output recovers
the input's words in order, none dropped or duplicated. -/
theorem wrap_join_words_amended (width : List Char → ℚ) (maxW : ℚ)
    (text : List Char) :
    wrapLines width maxW "".data = []
    ∧ spaceJoin (wrapLines width maxW text)
        = wrapLeadPad width maxW text ++ spaceJoin (pySplit text)
    ∧ pySplit (spaceJoin (wrapLines width maxW text)) = pySplit text := by
  have key : spaceJoin (wrapLines width maxW text)
      = wrapLeadPad width maxW text ++ spaceJoin (pySplit text) := by
    simp only [wrapLines, wrapLeadPad]
    cases hsp : pySplit text with
    | nil => simp [wrapCore, spaceJoin]
    | cons w ws =>
      have hw := pySplit_mem text w (hsp ▸ List.mem_cons_self _ _)
      have hws' : ∀ x ∈ ws, x ≠ [] ∧ wsFree x = true := fun x hx =>
        pySplit_mem text x (hsp ▸ List.mem_cons_of_mem _ hx)
      simp only [wrapCore]
      rw [show ([] : List Char) ++ ' ' :: w = ' ' :: w from rfl]
      rw [show (' ' :: w : List Char) = [] ++ ' ' :: w from rfl,
        pyStrip_join [] w rfl hw.2 hw.1, if_pos rfl]
      by_cases hfit : width w ≤ maxW
      · rw [if_pos hfit, if_pos hfit,
          wrapCore_join width maxW ws w hws' hw.1 (headOk_of_wsFree _ hw.2)]
        simp
      · rw [if_neg hfit, if_neg hfit]
        have hnn := wrapCore_ne_nil width maxW ws w hws' hw.1
          (headOk_of_wsFree _ hw.2)
        have hrest := wrapCore_join width maxW ws w hws' hw.1
          (headOk_of_wsFree _ hw.2)
        cases hcase : wrapCore width maxW ws w with
        | nil => exact absurd hcase hnn
        | cons r rs =>
          rw [hcase] at hrest
          simp only [spaceJoin, List.nil_append]
          rw [hrest]
          rfl
  refine ⟨rfl, key, ?_⟩
  rw [key]
  cases hsp : pySplit text with
  | nil =>
    have hpad : wrapLeadPad width maxW text = [] := by
      unfold wrapLeadPad
      rw [hsp]
    rw [hpad]
    rfl
  | cons w ws =>
    have hmem : ∀ x ∈ w :: ws, x ≠ [] ∧ wsFree x = true := fun x hx =>
      pySplit_mem text x (hsp ▸ hx)
    have hpad : wrapLeadPad width maxW text
        = if width w ≤ maxW then [] else [' '] := by
      simp [wrapLeadPad, hsp]
    rw [hpad]
    by_cases hfit : width w ≤ maxW
    · rw [if_pos hfit]
      simpa using pySplit_spaceJoin _ hmem
    · rw [if_neg hfit]
      rw [show ([' '] : List Char) ++ spaceJoin (w :: ws)
          = ' ' :: spaceJoin (w :: ws) from rfl, pySplit_cons_space]
      exact pySplit_spaceJoin _ hmem

/-! ## Claim C2: every line fits, except a lone over-wide word -/

/-- C2: every line the wrapper produces either measures within
`max_width` or is a single input word placed alone and untruncated
(this covers the word whose own width exceeds `max_width`).  The
hypothesis records the metrics provider's behaviour on the empty
string (`stringWidth("") = 0 ≤ max_width` for the widths the builder
passes). -/
theorem wrap_line_width_bound (width : List Char → ℚ) (maxW : ℚ)
    (text : List Char) (hempty : width [] ≤ maxW) :
    ∀ l ∈ wrapLines width maxW text, width l ≤ maxW ∨ l ∈ pySplit text := by
  have key : ∀ (ws : List (List Char)) (cur : List Char),
      (∀ w ∈ ws, w ∈ pySplit text) →
      (width cur ≤ maxW ∨ cur ∈ pySplit text) →
      ∀ l ∈ wrapCore width maxW ws cur, width l ≤ maxW ∨ l ∈ pySplit text := by
    intro ws
    induction ws with
    | nil =>
      intro cur _ hcur l hl
      simp only [wrapCore] at hl
      split at hl
      · simp at hl
      · simp only [List.mem_singleton] at hl
        exact hl ▸ hcur
    | cons w ws ih =>
      intro cur hws hcur l hl
      have hws' : ∀ x ∈ ws, x ∈ pySplit text := fun x hx =>
        hws x (List.mem_cons_of_mem _ hx)
      simp only [wrapCore] at hl
      split at hl
      · next hfit => exact ih _ hws' (Or.inl hfit) l hl
      · rcases List.mem_cons.mp hl with h | h
        · exact h ▸ hcur
        · exact ih _ hws' (Or.inr (hws w (List.mem_cons_self _ _))) l h
  exact key (pySplit text) [] (fun w h => h) (Or.inl hempty)

/-- C2 witness: metrics `width = length`, `max_width = 5`, text
`"aa bbbbbb"`; the second line is the lone word `"bbbbbb"` of width 6. -/
theorem wrap_line_width_bound_witness :
    ((fun s : List Char => (s.length : ℚ)) [] ≤ 5)
    ∧ ∀ l ∈ wrapLines (fun s : List Char => (s.length : ℚ)) 5 "aa bbbbbb".data,
        (fun s : List Char => (s.length : ℚ)) l ≤ 5 ∨ l ∈ pySplit "aa bbbbbb".data :=
  ⟨by norm_num, wrap_line_width_bound _ 5 _ (by norm_num)⟩

/-! ## The block measurer and `draw_text`

`PageBuilder._measure_text_block` returns the wrapped lines and
`len(lines) * font_size * line_spacing_factor`;
`PageBuilder.draw_text` (`src/page_builder.py` lines 127-187) draws an
optional background rectangle, draws each wrapped line, and returns the
new cursor.  The reportlab canvas calls are recorded in a
`DrawTextResult` value: the painted rectangle's bottom edge and height,
whether it is painted at all (`background_color` truthy), and the
`(line, baseline-y)` pairs passed to `drawString`. -/

/-- `_measure_text_block`: wrapped lines and total text height
`len(lines) * (font_size * line_spacing_factor)`. -/
def measureTextBlock (width : List Char → ℚ) (maxW fontSize lsf : ℚ)
    (text : List Char) : List (List Char) × ℚ :=
  ((wrapLines width maxW text),
    ((wrapLines width maxW text).length : ℚ) * (fontSize * lsf))

/-- The observable effect of one `draw_text` call. -/
structure DrawTextResult where
  lines : List (List Char)
  rectY : ℚ
  rectHeight : ℚ
  rectPainted : Bool
  draws : List (ℚ × List Char × ℚ)
  ret : ℚ
  deriving DecidableEq

/-- `PageBuilder.draw_text`.  Arguments follow the Python signature with
the font resolved ( `font_name or self.font_name` folded into `width`,
`font_size or self.font_size` into `fontSize`); `lsf` is the page's
`line_spacing_factor`.  Python truthiness of `offset_top` (`None` and
`0.0` are falsy) is `offsetTop.getD 0 ≠ 0`. -/
def drawText (width : List Char → ℚ) (lsf x y : ℚ) (text : List Char)
    (maxW : ℚ) (sectionCounter : ℕ) (fontSize : ℚ)
    (backgroundColor : Option (ℚ × ℚ × ℚ))
    (paddingTop paddingBottom spacingFontCorrectionFactor : ℚ)
    (offsetTop : Option ℚ) : DrawTextResult :=
  let lineSpacing := fontSize * lsf
  let fontSpacingCorrection := spacingFontCorrectionFactor * fontSize
  let yPosition := y - fontSpacingCorrection
  let lines := (measureTextBlock width maxW fontSize lsf text).1
  let textHeight := (measureTextBlock width maxW fontSize lsf text).2
  let blockHeight0 :=
    textHeight + paddingTop + paddingBottom + fontSpacingCorrection
  let yBlock := yPosition - paddingTop - textHeight - paddingBottom
  let blockHeightRect :=
    if offsetTop.getD 0 ≠ 0 ∧ sectionCounter = 0 then
      blockHeight0 + offsetTop.getD 0
    else blockHeight0
  let yDraw := yPosition - paddingTop
  let blockHeightFinal :=
    if offsetTop.getD 0 ≠ 0 ∧ sectionCounter = 0 then
      blockHeightRect - offsetTop.getD 0
    else blockHeightRect
  { lines := lines
    rectY := yBlock
    rectHeight := blockHeightRect
    rectPainted := backgroundColor.isSome
    draws := lines.enum.map fun p => (x, p.2, yDraw - (p.1 : ℚ) * lineSpacing)
    ret := y - blockHeightFinal }

/-- Concrete metrics for scenario instances: each character one point
wide. -/
def lenWidth (s : List Char) : ℚ := (s.length : ℚ)

/-- Helper: the cursor `draw_text` returns, for any `offset_top`:
the add and the subtract of `offset_top` are guarded by the same
condition, so they cancel in the return value. -/
theorem drawText_ret_eq (width : List Char → ℚ) (lsf x y : ℚ)
    (text : List Char) (maxW : ℚ) (sc : ℕ) (fs : ℚ)
    (bg : Option (ℚ × ℚ × ℚ)) (pt pb scf : ℚ) (ot : Option ℚ) :
    (drawText width lsf x y text maxW sc fs bg pt pb scf ot).ret
      = y - (((wrapLines width maxW text).length : ℚ) * (fs * lsf)
          + pt + pb + scf * fs) := by
  by_cases h : ot.getD 0 ≠ 0 ∧ sc = 0
  · simp only [drawText, measureTextBlock, if_pos h]
    ring
  · simp only [drawText, measureTextBlock, if_neg h]

/-! ## Claim C3: the returned cursor -/

/-- C3: `draw_text` returns `y` minus the block height
`len(lines) * font_size * line_spacing_factor + padding_top +
padding_bottom + spacing_font_correction_factor * font_size` (the
`offset_top` addition is undone before the return).  The second
conjunct is the spec scenario: a one-line title at font size 18,
line-height factor 1.2 and page height 1000 leaves the cursor at
`1000 - (18*1.2 + padding_top + padding_bottom + correction)`. -/
theorem drawText_ret (width : List Char → ℚ) (lsf x y : ℚ)
    (text : List Char) (maxW : ℚ) (sc : ℕ) (fs : ℚ)
    (bg : Option (ℚ × ℚ × ℚ)) (pt pb scf : ℚ) (ot : Option ℚ) :
    (drawText width lsf x y text maxW sc fs bg pt pb scf ot).ret
      = y - (((wrapLines width maxW text).length : ℚ) * (fs * lsf)
          + pt + pb + scf * fs)
    ∧ (drawText lenWidth (6/5) 20 1000 "Pumpkin Risotto".data 300 0 18
          none 10 12 (3/2) none).ret
      = 1000 - (18 * (6/5) + 10 + 12 + (3/2) * 18) := by
  refine ⟨drawText_ret_eq width lsf x y text maxW sc fs bg pt pb scf ot, ?_⟩
  rw [drawText_ret_eq]
  have hlen : (wrapLines lenWidth 300 "Pumpkin Risotto".data).length = 1 := by
    decide
  rw [hlen]
  norm_num

/-! ## Claim C10: the `offset_top` frame -/

/-- C10: compared with a call without `offset_top`, passing `offset_top`
changes only the painted background rectangle: its height gains
`offset_top` when `section_counter == 0` (the guard's other conjunct,
Python truthiness, only excludes the falsy `offset_top == 0.0`, which
gains nothing anyway) while its bottom edge `rectY` is unchanged, since
the enlargement is computed after `y_block`; the returned cursor, the
wrapped lines and the drawn strings are identical, because `draw_text`
subtracts `offset_top` back before returning; for
`section_counter ≠ 0` the rectangle too is unchanged. -/
theorem drawText_offsetTop_frame (width : List Char → ℚ) (lsf x y : ℚ)
    (text : List Char) (maxW : ℚ) (sc : ℕ) (fs : ℚ)
    (bg : Option (ℚ × ℚ × ℚ)) (pt pb scf o : ℚ) :
    (drawText width lsf x y text maxW sc fs bg pt pb scf (some o)).ret
      = (drawText width lsf x y text maxW sc fs bg pt pb scf none).ret
    ∧ (drawText width lsf x y text maxW sc fs bg pt pb scf (some o)).lines
      = (drawText width lsf x y text maxW sc fs bg pt pb scf none).lines
    ∧ (drawText width lsf x y text maxW sc fs bg pt pb scf (some o)).draws
      = (drawText width lsf x y text maxW sc fs bg pt pb scf none).draws
    ∧ (drawText width lsf x y text maxW sc fs bg pt pb scf (some o)).rectY
      = (drawText width lsf x y text maxW sc fs bg pt pb scf none).rectY
    ∧ (drawText width lsf x y text maxW sc fs bg pt pb scf (some o)).rectPainted
      = (drawText width lsf x y text maxW sc fs bg pt pb scf none).rectPainted
    ∧ (drawText width lsf x y text maxW sc fs bg pt pb scf (some o)).rectHeight
      = (drawText width lsf x y text maxW sc fs bg pt pb scf none).rectHeight
        + (if sc = 0 then o else 0) := by
  refine ⟨?_, rfl, rfl, rfl, rfl, ?_⟩
  · rw [drawText_ret_eq, drawText_ret_eq]
  · by_cases hsc : sc = 0
    · by_cases ho : o = 0
      · subst ho
        simp [drawText, measureTextBlock, hsc]
      · simp [drawText, measureTextBlock, hsc, ho]
    · simp [drawText, measureTextBlock, hsc]

/-! ## The recipe builder (`src/mobile_recipe_build.py`)

`RecipePDFBuilder` holds the validated layout configuration, a cursor
`y_position` starting at the page height, and a `section_counter`
starting at 0.  `_draw_cover_image` subtracts the configured image
height from the cursor (the drawn width preserves the image file's
aspect ratio — an external resource, irrelevant to the cursor);
`_draw_text_block` picks `palette[section_counter % len(palette)]`,
renders the text through `page.draw_text` and increments the counter;
`add_section` dispatches on the section name and silently skips
unrecognized names (`else: pass`). -/

/-- The configuration fields the builder reads (`config.*` plus the
page's `line_spacing_factor`). -/
structure LayoutCfg where
  pageWidth : ℚ
  pageHeight : ℚ
  lineSpacingFactor : ℚ
  marginLeft : ℚ
  marginRight : ℚ
  sectionTop : ℚ
  sectionBottom : ℚ
  fontShiftFactor : ℚ
  imageHeight : ℚ
  palette : List (ℚ × ℚ × ℚ)
  deriving DecidableEq

/-- The builder's mutable state: the cursor and the section counter. -/
structure BuilderState where
  yPosition : ℚ
  sectionCounter : ℕ
  deriving DecidableEq

/-- `RecipePDFBuilder._draw_cover_image`: `y_position -= image_height`
(the divider line is drawn at the new cursor and does not move it). -/
def drawCoverImage (cfg : LayoutCfg) (st : BuilderState) : BuilderState :=
  { st with yPosition := st.yPosition - cfg.imageHeight }

/-- `RecipePDFBuilder._draw_text_block`.  The source invokes
`page.draw_text` with keyword arguments `margin_top`, `margin_bottom`
and `font_shift_factor` that `draw_text` does not declare, and without
the required `section_counter` — the call as written raises `TypeError`
(recorded by `drawTextBlock_call_mismatch` below).  The embedding maps
each keyword onto the `draw_text` parameter it stands for
(`padding_top`, `padding_bottom`, `spacing_font_correction_factor`)
and passes no `offset_top`.  Python's `palette[counter % len(palette)]`
raises `ZeroDivisionError` on an empty palette; `getD`'s default is
only reachable there, and the theorems assume a nonempty palette. -/
def drawTextBlock (cfg : LayoutCfg) (width : List Char → ℚ)
    (st : BuilderState) (text : List Char) (fontSize : ℚ) :
    BuilderState × (ℚ × ℚ × ℚ) :=
  let bgColor :=
    cfg.palette.getD (st.sectionCounter % cfg.palette.length) (0, 0, 0)
  let r := drawText width cfg.lineSpacingFactor cfg.marginLeft st.yPosition
    text (cfg.pageWidth - cfg.marginLeft - cfg.marginRight) st.sectionCounter
    fontSize (some bgColor) cfg.sectionTop cfg.sectionBottom
    cfg.fontShiftFactor none
  ({ yPosition := r.ret, sectionCounter := st.sectionCounter + 1 }, bgColor)

/-- One section of the recipe, as the builder renders it: a text-bearing
section (the dispatch table renders `title` with font size 18), the
cover image, or an unrecognized name (skipped). -/
inductive SectionKind where
  | text (content : List Char) (fontSize : ℚ)
  | coverImage
  | unknown
  deriving DecidableEq

/-- Render one section: the new state and the palette color consumed by
a text-bearing section (`none` for the cover image and skipped names). -/
def stepSection (cfg : LayoutCfg) (width : List Char → ℚ)
    (st : BuilderState) : SectionKind → BuilderState × Option (ℚ × ℚ × ℚ)
  | .text t fs =>
    ((drawTextBlock cfg width st t fs).1, some (drawTextBlock cfg width st t fs).2)
  | .coverImage => (drawCoverImage cfg st, none)
  | .unknown => (st, none)

/-- `RecipePDFBuilder.build`'s loop over the recipe's sections,
collecting the palette colors used by text-bearing sections. -/
def runSections (cfg : LayoutCfg) (width : List Char → ℚ) :
    BuilderState → List SectionKind → BuilderState × List (ℚ × ℚ × ℚ)
  | st, [] => (st, [])
  | st, s :: ss =>
    ((runSections cfg width (stepSection cfg width st s).1 ss).1,
      (stepSection cfg width st s).2.toList
        ++ (runSections cfg width (stepSection cfg width st s).1 ss).2)

/-! ## Claim C4: the cursor never moves up -/

/-- Well-formedness of the numbers a section render reads from the
validated configuration (nonnegative line height and baseline
correction for its font size, nonnegative image height). -/
def sectionWf (cfg : LayoutCfg) : SectionKind → Bool
  | .text _ fs =>
    decide (0 ≤ fs * cfg.lineSpacingFactor)
      && decide (0 ≤ cfg.fontShiftFactor * fs)
  | .coverImage => decide (0 ≤ cfg.imageHeight)
  | .unknown => true

/-- Non-zero content in the claim's sense: a text section whose text
contains a word (with a positive line height), or a cover image of
positive height.  Unrecognized sections are skipped and have none. -/
def sectionHasContent (cfg : LayoutCfg) : SectionKind → Bool
  | .text t fs =>
    decide (pySplit t ≠ []) && decide (0 < fs * cfg.lineSpacingFactor)
  | .coverImage => decide (0 < cfg.imageHeight)
  | .unknown => false

theorem wrapLines_ne_nil (width : List Char → ℚ) (maxW : ℚ)
    (text : List Char) (h : pySplit text ≠ []) :
    wrapLines width maxW text ≠ [] := by
  unfold wrapLines
  cases hsp : pySplit text with
  | nil => exact absurd hsp h
  | cons w ws =>
    have hw := pySplit_mem text w (hsp ▸ List.mem_cons_self _ _)
    have hws' : ∀ x ∈ ws, x ≠ [] ∧ wsFree x = true := fun x hx =>
      pySplit_mem text x (hsp ▸ List.mem_cons_of_mem _ hx)
    simp only [wrapCore]
    rw [pyStrip_join [] w rfl hw.2 hw.1, if_pos rfl]
    split
    · exact wrapCore_ne_nil width maxW ws w hws' hw.1 (headOk_of_wsFree _ hw.2)
    · simp

theorem stepSection_y_le (cfg : LayoutCfg) (width : List Char → ℚ)
    (st : BuilderState) (s : SectionKind)
    (hT : 0 ≤ cfg.sectionTop) (hB : 0 ≤ cfg.sectionBottom)
    (hwf : sectionWf cfg s = true) :
    (stepSection cfg width st s).1.yPosition ≤ st.yPosition := by
  cases s with
  | text t fs =>
    simp only [sectionWf, Bool.and_eq_true, decide_eq_true_eq] at hwf
    simp only [stepSection, drawTextBlock, drawText_ret_eq]
    have hn : (0 : ℚ) ≤ ((wrapLines width
        (cfg.pageWidth - cfg.marginLeft - cfg.marginRight) t).length : ℚ) :=
      Nat.cast_nonneg _
    have := mul_nonneg hn hwf.1
    linarith
  | coverImage =>
    simp only [sectionWf, decide_eq_true_eq] at hwf
    simp only [stepSection, drawCoverImage]
    linarith
  | unknown => simp [stepSection]

theorem stepSection_y_lt (cfg : LayoutCfg) (width : List Char → ℚ)
    (st : BuilderState) (s : SectionKind)
    (hT : 0 ≤ cfg.sectionTop) (hB : 0 ≤ cfg.sectionBottom)
    (hwf : sectionWf cfg s = true) (hc : sectionHasContent cfg s = true) :
    (stepSection cfg width st s).1.yPosition < st.yPosition := by
  cases s with
  | text t fs =>
    simp only [sectionWf, Bool.and_eq_true, decide_eq_true_eq] at hwf
    simp only [sectionHasContent, Bool.and_eq_true, decide_eq_true_eq] at hc
    simp only [stepSection, drawTextBlock, drawText_ret_eq]
    have hne := wrapLines_ne_nil width
      (cfg.pageWidth - cfg.marginLeft - cfg.marginRight) t hc.1
    have hn : (1 : ℚ) ≤ ((wrapLines width
        (cfg.pageWidth - cfg.marginLeft - cfg.marginRight) t).length : ℚ) := by
      have : 1 ≤ (wrapLines width
          (cfg.pageWidth - cfg.marginLeft - cfg.marginRight) t).length :=
        Nat.one_le_iff_ne_zero.mpr (by simpa using hne)
      exact_mod_cast this
    have h1 : fs * cfg.lineSpacingFactor
        ≤ ((wrapLines width
            (cfg.pageWidth - cfg.marginLeft - cfg.marginRight) t).length : ℚ)
          * (fs * cfg.lineSpacingFactor) :=
      le_mul_of_one_le_left (le_of_lt hc.2) hn
    linarith
  | coverImage =>
    simp only [sectionHasContent, decide_eq_true_eq] at hc
    simp only [stepSection, drawCoverImage]
    linarith
  | unknown => simp [sectionHasContent] at hc

theorem runSections_y_le (cfg : LayoutCfg) (width : List Char → ℚ)
    (secs : List SectionKind) (st : BuilderState)
    (hT : 0 ≤ cfg.sectionTop) (hB : 0 ≤ cfg.sectionBottom)
    (hwf : ∀ s ∈ secs, sectionWf cfg s = true) :
    (runSections cfg width st secs).1.yPosition ≤ st.yPosition := by
  induction secs generalizing st with
  | nil => simp [runSections]
  | cons s ss ih =>
    have h1 := stepSection_y_le cfg width st s hT hB
      (hwf s (List.mem_cons_self _ _))
    have h2 := ih (stepSection cfg width st s).1
      (fun x hx => hwf x (List.mem_cons_of_mem _ hx))
    simp only [runSections]
    linarith

theorem runSections_y_lt (cfg : LayoutCfg) (width : List Char → ℚ)
    (secs : List SectionKind) (st : BuilderState)
    (hT : 0 ≤ cfg.sectionTop) (hB : 0 ≤ cfg.sectionBottom)
    (hwf : ∀ s ∈ secs, sectionWf cfg s = true)
    (hc : ∃ s ∈ secs, sectionHasContent cfg s = true) :
    (runSections cfg width st secs).1.yPosition < st.yPosition := by
  induction secs generalizing st with
  | nil => simp at hc
  | cons s ss ih =>
    have hwf' : ∀ x ∈ ss, sectionWf cfg x = true := fun x hx =>
      hwf x (List.mem_cons_of_mem _ hx)
    simp only [runSections]
    by_cases hs : sectionHasContent cfg s = true
    · have h1 := stepSection_y_lt cfg width st s hT hB
        (hwf s (List.mem_cons_self _ _)) hs
      have h2 := runSections_y_le cfg width ss (stepSection cfg width st s).1
        hT hB hwf'
      linarith
    · rcases hc with ⟨x, hx, hxc⟩
      rcases List.mem_cons.mp hx with h | h
      · exact absurd (h ▸ hxc) hs
      · have h1 := stepSection_y_le cfg width st s hT hB
          (hwf s (List.mem_cons_self _ _))
        have h2 := ih (stepSection cfg width st s).1 hwf' ⟨x, h, hxc⟩
        linarith

/-- C4: across a document build the cursor is monotonically
non-increasing: running any list of section renders never raises
`y_position`, and it strictly lowers it as soon as some rendered
section has non-zero content (a text section with at least one word, or
a cover image of positive height; an unrecognized section is skipped
unchanged).  The hypotheses record the validated configuration: section
margins and per-section font numbers are nonnegative. -/
theorem cursor_monotone (cfg : LayoutCfg) (width : List Char → ℚ)
    (secs : List SectionKind) (st : BuilderState)
    (hT : 0 ≤ cfg.sectionTop) (hB : 0 ≤ cfg.sectionBottom)
    (hwf : ∀ s ∈ secs, sectionWf cfg s = true) :
    (runSections cfg width st secs).1.yPosition ≤ st.yPosition
    ∧ ((∃ s ∈ secs, sectionHasContent cfg s = true) →
        (runSections cfg width st secs).1.yPosition < st.yPosition) :=
  ⟨runSections_y_le cfg width secs st hT hB hwf,
    fun hc => runSections_y_lt cfg width secs st hT hB hwf hc⟩

/-- A concrete validated configuration for witness instances. -/
def cfg0 : LayoutCfg where
  pageWidth := 255
  pageHeight := 1000
  lineSpacingFactor := 6/5
  marginLeft := 20
  marginRight := 20
  sectionTop := 10
  sectionBottom := 12
  fontShiftFactor := 3/2
  imageHeight := 150
  palette := [(1, 0, 0), (0, 1, 0)]

/-- A concrete section list for witness instances: a title, a cover
image, an unknown section, and two more text sections. -/
def demoSections : List SectionKind :=
  [SectionKind.text "Pumpkin Risotto".data 18, SectionKind.coverImage,
    SectionKind.unknown, SectionKind.text "a hearty dish".data 12,
    SectionKind.text "serves four".data 12]

/-- C4 witness: the concrete run from `y = 1000` only moves the cursor
down, strictly so (the demo list has sections with content). -/
theorem cursor_monotone_witness :
    (runSections cfg0 lenWidth ⟨1000, 0⟩ demoSections).1.yPosition ≤ 1000
    ∧ ((∃ s ∈ demoSections, sectionHasContent cfg0 s = true) →
        (runSections cfg0 lenWidth ⟨1000, 0⟩ demoSections).1.yPosition < 1000) :=
  cursor_monotone cfg0 lenWidth demoSections ⟨1000, 0⟩ (by norm_num [cfg0])
    (by norm_num [cfg0])
    (by
      intro s hs
      simp only [demoSections, List.mem_cons, List.not_mem_nil, or_false] at hs
      rcases hs with rfl | rfl | rfl | rfl | rfl <;>
        simp [sectionWf, cfg0] <;> norm_num)

/-! ## Claim C5: palette cycling -/

/-- The number of text-bearing sections (those that consume a palette
slot and advance `section_counter`). -/
def textCount : List SectionKind → ℕ
  | [] => 0
  | SectionKind.text _ _ :: ss => textCount ss + 1
  | _ :: ss => textCount ss

/-- The palette colors `_draw_text_block` picks along a run whose
counter starts at `c`: one per text-bearing section, each
`palette[counter % len(palette)]`. -/
def paletteTrace (cfg : LayoutCfg) : ℕ → List SectionKind → List (ℚ × ℚ × ℚ)
  | _, [] => []
  | c, SectionKind.text _ _ :: ss =>
    cfg.palette.getD (c % cfg.palette.length) (0, 0, 0)
      :: paletteTrace cfg (c + 1) ss
  | c, _ :: ss => paletteTrace cfg c ss

theorem runSections_trace (cfg : LayoutCfg) (width : List Char → ℚ)
    (secs : List SectionKind) : ∀ st : BuilderState,
    (runSections cfg width st secs).2
        = paletteTrace cfg st.sectionCounter secs
    ∧ (runSections cfg width st secs).1.sectionCounter
        = st.sectionCounter + textCount secs := by
  induction secs with
  | nil => intro st; simp [runSections, paletteTrace, textCount]
  | cons s ss ih =>
    intro st
    cases s with
    | text t fs =>
      have ihs := ih (stepSection cfg width st (SectionKind.text t fs)).1
      have hc : (stepSection cfg width st (SectionKind.text t fs)).1.sectionCounter
          = st.sectionCounter + 1 := by
        simp [stepSection, drawTextBlock]
      constructor
      · simp only [runSections]
        rw [ihs.1, hc]
        simp only [paletteTrace]
        simp [stepSection, drawTextBlock]
      · simp only [runSections]
        rw [ihs.2, hc]
        simp only [textCount]
        omega
    | coverImage =>
      have ihs := ih (stepSection cfg width st SectionKind.coverImage).1
      have hc : (stepSection cfg width st SectionKind.coverImage).1.sectionCounter
          = st.sectionCounter := by
        simp [stepSection, drawCoverImage]
      constructor
      · simp only [runSections]
        rw [ihs.1, hc]
        simp [stepSection, paletteTrace]
      · simp only [runSections]
        rw [ihs.2, hc]
        simp [textCount]
    | unknown =>
      have ihs := ih (stepSection cfg width st SectionKind.unknown).1
      constructor
      · simp only [runSections]
        rw [ihs.1]
        simp [stepSection, paletteTrace]
      · simp only [runSections]
        rw [ihs.2]
        simp [stepSection, textCount]

theorem paletteTrace_getElem (cfg : LayoutCfg) (secs : List SectionKind) :
    ∀ (c k : ℕ),
    (paletteTrace cfg c secs)[k]?
      = if k < textCount secs then
          some (cfg.palette.getD ((c + k) % cfg.palette.length) (0, 0, 0))
        else none := by
  induction secs with
  | nil => intro c k; simp [paletteTrace, textCount]
  | cons s ss ih =>
    intro c k
    cases s with
    | text t fs =>
      cases k with
      | zero => simp [paletteTrace, textCount]
      | succ k =>
        simp only [paletteTrace, textCount, List.getElem?_cons_succ]
        rw [ih (c + 1) k]
        have harith : c + 1 + k = c + (k + 1) := by omega
        rw [harith]
        by_cases hk : k < textCount ss
        · rw [if_pos hk, if_pos (by omega)]
        · rw [if_neg hk, if_neg (by omega)]
    | coverImage =>
      simp only [paletteTrace, textCount]
      exact ih c k
    | unknown =>
      simp only [paletteTrace, textCount]
      exact ih c k

/-- C5: starting from counter 0, the `k`-th text-bearing section is
painted with `palette[k % len(palette)]`, so the `k`-th and
`(k + P)`-th text sections receive the same color; the counter ends at
the number of text-bearing sections — it advances once per text block
and not at all for cover images or skipped sections. -/
theorem palette_cycling (cfg : LayoutCfg) (width : List Char → ℚ)
    (secs : List SectionKind) (y : ℚ) (hP : cfg.palette ≠ []) :
    (∀ k, k < textCount secs →
      (runSections cfg width ⟨y, 0⟩ secs).2[k]?
        = some (cfg.palette.getD (k % cfg.palette.length) (0, 0, 0)))
    ∧ (runSections cfg width ⟨y, 0⟩ secs).1.sectionCounter = textCount secs
    ∧ ∀ k, k + cfg.palette.length < textCount secs →
        (runSections cfg width ⟨y, 0⟩ secs).2[k + cfg.palette.length]?
          = (runSections cfg width ⟨y, 0⟩ secs).2[k]? := by
  have htrace := runSections_trace cfg width secs ⟨y, 0⟩
  have hget : ∀ k, (runSections cfg width ⟨y, 0⟩ secs).2[k]?
      = if k < textCount secs then
          some (cfg.palette.getD (k % cfg.palette.length) (0, 0, 0))
        else none := by
    intro k
    rw [htrace.1]
    have := paletteTrace_getElem cfg secs 0 k
    simpa using this
  refine ⟨fun k hk => by rw [hget k, if_pos hk], by simpa using htrace.2, ?_⟩
  intro k hk
  rw [hget k, hget (k + cfg.palette.length), if_pos hk,
    if_pos (show k < textCount secs from by omega), Nat.add_mod_right]

/-- C5 witness: palette of length 2, five sections of which three bear
text; the third text section repeats the first color and the counter
ends at 3. -/
theorem palette_cycling_witness :
    (cfg0.palette ≠ [])
    ∧ (∀ k, k < textCount demoSections →
        (runSections cfg0 lenWidth ⟨1000, 0⟩ demoSections).2[k]?
          = some (cfg0.palette.getD (k % cfg0.palette.length) (0, 0, 0)))
    ∧ (runSections cfg0 lenWidth ⟨1000, 0⟩ demoSections).1.sectionCounter
        = textCount demoSections
    ∧ ∀ k, k + cfg0.palette.length < textCount demoSections →
        (runSections cfg0 lenWidth ⟨1000, 0⟩ demoSections).2[k + cfg0.palette.length]?
          = (runSections cfg0 lenWidth ⟨1000, 0⟩ demoSections).2[k]? :=
  ⟨by decide, palette_cycling cfg0 lenWidth demoSections 1000 (by decide)⟩

/-! ## Claim C6: unknown section names are skipped

`RecipePDFBuilder.add_section` (`src/mobile_recipe_build.py` lines
95-112) binds a handler only for `"cover_image"` and `"title"` and ends
in `else: pass`: any other name falls through, touching neither the
recipe value, the cursor nor the counter. -/

/-- A recipe value (`json.load` output shapes the builder meets). -/
inductive RecipeVal where
  | str (s : List Char)
  | vals (items : List RecipeVal)

/-- The Python exceptions the dispatch can surface. -/
inductive PyErr where
  | keyError (k : String)
  | typeError
  deriving DecidableEq

/-- Python `dict` lookup `self.recipe[section_name]`. -/
def lookupRecipe : List (String × RecipeVal) → String → Option RecipeVal
  | [], _ => none
  | (k, v) :: kvs, key => if k = key then some v else lookupRecipe kvs key

/-- `RecipePDFBuilder.add_section`: dispatch on the section name.
`cover_image` draws the cover (the image file itself is an external
resource; a missing key is a `KeyError`), `title` draws a text block at
font size 18 (a non-string value would fail inside `draw_text`), and
every other name hits `else: pass`. -/
def addSection (cfg : LayoutCfg) (width : List Char → ℚ)
    (recipe : List (String × RecipeVal)) (st : BuilderState)
    (name : String) : Except PyErr BuilderState :=
  if name = "cover_image" then
    match lookupRecipe recipe name with
    | none => .error (.keyError name)
    | some _ => .ok (drawCoverImage cfg st)
  else if name = "title" then
    match lookupRecipe recipe name with
    | none => .error (.keyError name)
    | some (.str t) => .ok (drawTextBlock cfg width st t 18).1
    | some _ => .error .typeError
  else
    .ok st

/-- C6: for any name outside the recognized set, `add_section` returns
normally and the state — cursor and section counter — is unchanged. -/
theorem addSection_unknown (cfg : LayoutCfg) (width : List Char → ℚ)
    (recipe : List (String × RecipeVal)) (st : BuilderState) (name : String)
    (h1 : name ≠ "cover_image") (h2 : name ≠ "title") :
    addSection cfg width recipe st name = Except.ok st := by
  simp [addSection, h1, h2]

/-- A concrete recipe for witness instances. -/
def recipe0 : List (String × RecipeVal) :=
  [("title", RecipeVal.str "Pumpkin Risotto".data),
    ("nutrition_facts", RecipeVal.str "n/a".data)]

/-- C6 witness: the unknown name `"nutrition_facts"` is skipped without
an error and without moving the cursor or the counter. -/
theorem addSection_unknown_witness :
    ("nutrition_facts" ≠ "cover_image") ∧ ("nutrition_facts" ≠ "title")
    ∧ addSection cfg0 lenWidth recipe0 ⟨1000, 0⟩ "nutrition_facts"
        = Except.ok ⟨1000, 0⟩ :=
  ⟨by decide, by decide,
    addSection_unknown cfg0 lenWidth recipe0 ⟨1000, 0⟩ "nutrition_facts"
      (by decide) (by decide)⟩

/-! ## Claim C7: configuration validation (`src/config_manager.py`)

`ConfigManager.load_config_file` parses YAML and validates through the
pydantic model `ConfigSchema`: required nested sections
`DOCUMENT_MARGINS{LEFT,RIGHT}`, `SECTION_MARGINS{TOP,BOTTOM}`,
`LAYOUT_COVER{IMAGE_HEIGHT}`, `FONT{FONT_SHIFT_FACTOR}`, and
`COLORS{COLOR_MODE: Literal["repeating"], PALETTE:
list[conlist(float, min_items=3, max_items=3)]}`.  The embedding keeps
the check structure: a missing key or a wrongly shaped value is an
error naming the field; numeric fields accept a number (pydantic will
coerce between int and float; other coercions are not relied on by any
theorem).  Note `list[...]` bounds each entry to exactly 3 floats but
places no lower bound on the number of entries: the empty palette
passes. -/

/-- A parsed YAML value. -/
inductive YVal where
  | s (v : String)
  | n (v : ℚ)
  | b (v : Bool)
  | list (vs : List YVal)
  | dict (kvs : List (String × YVal))
  | null

/-- Mapping lookup inside a YAML document. -/
def yLookup : List (String × YVal) → String → Option YVal
  | [], _ => none
  | (k, v) :: kvs, key => if k = key then some v else yLookup kvs key

/-- A required field: absence is a schema violation naming the field. -/
def getField (kvs : List (String × YVal)) (k : String) : Except String YVal :=
  match yLookup kvs k with
  | some v => .ok v
  | none => .error k

/-- A nested model expects a mapping. -/
def asDict (field : String) : YVal → Except String (List (String × YVal))
  | .dict kvs => .ok kvs
  | _ => .error field

/-- An `int`/`float` field expects a number. -/
def asNum (field : String) : YVal → Except String ℚ
  | .n q => .ok q
  | _ => .error field

/-- `COLOR_MODE: Literal["repeating"]`. -/
def parseMode : YVal → Except String String
  | .s m => if m = "repeating" then .ok m else .error "COLOR_MODE"
  | _ => .error "COLOR_MODE"

/-- `conlist(float, min_items=3, max_items=3)`: exactly three numbers. -/
def asColor : YVal → Except String (ℚ × ℚ × ℚ)
  | .list [.n a, .n b, .n c] => .ok (a, b, c)
  | _ => .error "PALETTE"

/-- Validate every palette entry, first failure wins. -/
def mapMColors : List YVal → Except String (List (ℚ × ℚ × ℚ))
  | [] => .ok []
  | e :: es => do
    let c ← asColor e
    let cs ← mapMColors es
    return c :: cs

/-- `PALETTE: list[...]`: a list whose entries each validate. -/
def parsePalette : YVal → Except String (List (ℚ × ℚ × ℚ))
  | .list es => mapMColors es
  | _ => .error "PALETTE"

/-- The `COLORS` model. -/
def parseColors (v : YVal) : Except String (String × List (ℚ × ℚ × ℚ)) := do
  let kvs ← asDict "COLORS" v
  let mv ← getField kvs "COLOR_MODE"
  let mode ← parseMode mv
  let pv ← getField kvs "PALETTE"
  let colors ← parsePalette pv
  return (mode, colors)

/-- A two-field nested margins model. -/
def parsePair (field sub1 sub2 : String) (v : YVal) :
    Except String (ℚ × ℚ) := do
  let kvs ← asDict field v
  let a ← getField kvs sub1 >>= asNum sub1
  let b ← getField kvs sub2 >>= asNum sub2
  return (a, b)

/-- The validated configuration (`ConfigSchema.model_dump()`). -/
structure ConfigData where
  left : ℚ
  right : ℚ
  top : ℚ
  bottom : ℚ
  imageHeight : ℚ
  fontShiftFactor : ℚ
  colorMode : String
  palette : List (ℚ × ℚ × ℚ)

/-- `ConfigSchema(**raw_config)`: validate the whole document. -/
def validateConfig (v : YVal) : Except String ConfigData := do
  let kvs ← asDict "config" v
  let dm ← getField kvs "DOCUMENT_MARGINS"
    >>= parsePair "DOCUMENT_MARGINS" "LEFT" "RIGHT"
  let sm ← getField kvs "SECTION_MARGINS"
    >>= parsePair "SECTION_MARGINS" "TOP" "BOTTOM"
  let lc ← getField kvs "LAYOUT_COVER" >>= asDict "LAYOUT_COVER"
  let ih ← getField lc "IMAGE_HEIGHT" >>= asNum "IMAGE_HEIGHT"
  let fd ← getField kvs "FONT" >>= asDict "FONT"
  let fsf ← getField fd "FONT_SHIFT_FACTOR" >>= asNum "FONT_SHIFT_FACTOR"
  let co ← getField kvs "COLORS" >>= parseColors
  return ⟨dm.1, dm.2, sm.1, sm.2, ih, fsf, co.1, co.2⟩

/-! ### Inversion lemmas -/

theorem except_bind_ok {α β : Type} (x : Except String α)
    (f : α → Except String β) (b : β) (h : x >>= f = Except.ok b) :
    ∃ a, x = Except.ok a ∧ f a = Except.ok b := by
  cases x with
  | ok a => exact ⟨a, rfl, h⟩
  | error e =>
    have hrw : (Except.error e >>= f : Except String β) = Except.error e := rfl
    rw [hrw] at h
    exact absurd h (by simp)

theorem getField_ok (kvs : List (String × YVal)) (k : String) (v : YVal)
    (h : getField kvs k = Except.ok v) : yLookup kvs k = some v := by
  unfold getField at h
  cases hl : yLookup kvs k with
  | none => rw [hl] at h; exact absurd h (by simp)
  | some w =>
    rw [hl] at h
    simp only [Except.ok.injEq] at h
    rw [h]

theorem asDict_ok (f : String) (v : YVal) (kvs : List (String × YVal))
    (h : asDict f v = Except.ok kvs) : v = YVal.dict kvs := by
  cases v <;> simp [asDict] at h
  rw [h]

theorem parseMode_ok (v : YVal) (m : String)
    (h : parseMode v = Except.ok m) : v = YVal.s "repeating" := by
  unfold parseMode at h
  split at h
  · next str =>
    split at h
    · next heq => rw [heq]
    · exact absurd h (by simp)
  · exact absurd h (by simp)

theorem asColor_ok (e : YVal) (p : ℚ × ℚ × ℚ)
    (h : asColor e = Except.ok p) :
    ∃ a b c, e = YVal.list [YVal.n a, YVal.n b, YVal.n c] := by
  unfold asColor at h
  split at h
  · next a b c => exact ⟨a, b, c, rfl⟩
  · exact absurd h (by simp)

theorem mapMColors_shape (es : List YVal) :
    ∀ cs, mapMColors es = Except.ok cs →
    ∀ e ∈ es, ∃ a b c, e = YVal.list [YVal.n a, YVal.n b, YVal.n c] := by
  induction es with
  | nil => intro cs _ e he; simp at he
  | cons e0 es ih =>
    intro cs h e he
    unfold mapMColors at h
    obtain ⟨c0, hc0, h⟩ := except_bind_ok _ _ _ h
    obtain ⟨cs', hcs', _⟩ := except_bind_ok _ _ _ h
    rcases List.mem_cons.mp he with rfl | hmem
    · exact asColor_ok _ _ hc0
    · exact ih cs' hcs' e hmem

theorem parsePalette_ok (v : YVal) (cs : List (ℚ × ℚ × ℚ))
    (h : parsePalette v = Except.ok cs) :
    ∃ es, v = YVal.list es ∧ mapMColors es = Except.ok cs := by
  unfold parsePalette at h
  split at h
  · next es => exact ⟨es, rfl, h⟩
  · exact absurd h (by simp)

/-! ### Concrete configuration documents -/

/-- A document with all required sections and the given `COLORS`. -/
def cfgYamlWith (colors : YVal) : YVal :=
  YVal.dict
    [("DOCUMENT_MARGINS",
        YVal.dict [("LEFT", YVal.n 20), ("RIGHT", YVal.n 20)]),
      ("SECTION_MARGINS",
        YVal.dict [("TOP", YVal.n 10), ("BOTTOM", YVal.n 12)]),
      ("LAYOUT_COVER", YVal.dict [("IMAGE_HEIGHT", YVal.n 150)]),
      ("FONT", YVal.dict [("FONT_SHIFT_FACTOR", YVal.n 2)]),
      ("COLORS", colors)]

/-- A fully valid `COLORS` section with a two-color palette. -/
def goodColors : YVal :=
  YVal.dict [("COLOR_MODE", YVal.s "repeating"),
    ("PALETTE", YVal.list [YVal.list [YVal.n 1, YVal.n 0, YVal.n 0],
      YVal.list [YVal.n 0, YVal.n 1, YVal.n 0]])]

/-- The same document with `COLORS` removed. -/
def cfgYamlNoColors : YVal :=
  YVal.dict
    [("DOCUMENT_MARGINS",
        YVal.dict [("LEFT", YVal.n 20), ("RIGHT", YVal.n 20)]),
      ("SECTION_MARGINS",
        YVal.dict [("TOP", YVal.n 10), ("BOTTOM", YVal.n 12)]),
      ("LAYOUT_COVER", YVal.dict [("IMAGE_HEIGHT", YVal.n 150)]),
      ("FONT", YVal.dict [("FONT_SHIFT_FACTOR", YVal.n 2)])]

/-- C7 counterexample: an otherwise valid configuration whose `PALETTE`
is the empty list passes validation and is returned as a config with an
empty palette — `list[conlist(float, 3, 3)]` bounds each entry to three
floats but puts no lower bound on the number of entries, so the claimed
failure on an empty background-color palette does not happen. -/
theorem config_empty_palette_accepted_cex :
    validateConfig (cfgYamlWith (YVal.dict [("COLOR_MODE",
        YVal.s "repeating"), ("PALETTE", YVal.list [])]))
      = Except.ok ⟨20, 20, 10, 12, 150, 2, "repeating", []⟩ := rfl

/-- C7 (amended): a configuration accepted by the schema is a mapping
with every required top-level section present, `COLOR_MODE` exactly
`"repeating"`, and every `PALETTE` entry a list of exactly three
numbers — so a document missing a required field, with a palette entry
that is not three floats, or with a color mode outside the enumerated
set fails validation (witnessed concretely by the closed conjuncts),
and a valid document is accepted; an *empty* palette, however, passes
validation (the counterexample), so emptiness is not among the checks. -/
theorem config_validation_amended (v : YVal) (c : ConfigData)
    (h : validateConfig v = Except.ok c) :
    (∃ kvs, v = YVal.dict kvs
      ∧ (yLookup kvs "DOCUMENT_MARGINS").isSome = true
      ∧ (yLookup kvs "SECTION_MARGINS").isSome = true
      ∧ (yLookup kvs "LAYOUT_COVER").isSome = true
      ∧ (yLookup kvs "FONT").isSome = true
      ∧ ∃ ckvs, yLookup kvs "COLORS" = some (YVal.dict ckvs)
        ∧ yLookup ckvs "COLOR_MODE" = some (YVal.s "repeating")
        ∧ ∃ es, yLookup ckvs "PALETTE" = some (YVal.list es)
          ∧ ∀ e ∈ es, ∃ a b c3,
              e = YVal.list [YVal.n a, YVal.n b, YVal.n c3])
    ∧ validateConfig cfgYamlNoColors = Except.error "COLORS"
    ∧ validateConfig (cfgYamlWith (YVal.dict [("COLOR_MODE",
        YVal.s "alternating"), ("PALETTE", YVal.list [])]))
      = Except.error "COLOR_MODE"
    ∧ validateConfig (cfgYamlWith (YVal.dict [("COLOR_MODE",
        YVal.s "repeating"),
        ("PALETTE", YVal.list [YVal.list [YVal.n 1, YVal.n 0]])]))
      = Except.error "PALETTE"
    ∧ validateConfig (cfgYamlWith (YVal.dict [("COLOR_MODE",
        YVal.s "repeating"), ("PALETTE", YVal.s "red")]))
      = Except.error "PALETTE"
    ∧ validateConfig (cfgYamlWith goodColors)
      = Except.ok ⟨20, 20, 10, 12, 150, 2, "repeating",
          [(1, 0, 0), (0, 1, 0)]⟩ := by
  refine ⟨?_, rfl, rfl, rfl, rfl, rfl⟩
  unfold validateConfig at h
  obtain ⟨kvs, hkvs, h⟩ := except_bind_ok _ _ _ h
  obtain ⟨dm, hdm, h⟩ := except_bind_ok _ _ _ h
  obtain ⟨dmv, hdmv, _⟩ := except_bind_ok _ _ _ hdm
  obtain ⟨sm, hsm, h⟩ := except_bind_ok _ _ _ h
  obtain ⟨smv, hsmv, _⟩ := except_bind_ok _ _ _ hsm
  obtain ⟨lc, hlc, h⟩ := except_bind_ok _ _ _ h
  obtain ⟨lcv, hlcv, _⟩ := except_bind_ok _ _ _ hlc
  obtain ⟨ihv, hih, h⟩ := except_bind_ok _ _ _ h
  obtain ⟨fd, hfd, h⟩ := except_bind_ok _ _ _ h
  obtain ⟨fdv, hfdv, _⟩ := except_bind_ok _ _ _ hfd
  obtain ⟨fsf, hfsf, h⟩ := except_bind_ok _ _ _ h
  obtain ⟨co, hco, h⟩ := except_bind_ok _ _ _ h
  obtain ⟨cov, hcov, hpc⟩ := except_bind_ok _ _ _ hco
  unfold parseColors at hpc
  obtain ⟨ckvs, hckvs, hpc⟩ := except_bind_ok _ _ _ hpc
  obtain ⟨mv, hmv, hpc⟩ := except_bind_ok _ _ _ hpc
  obtain ⟨mode, hmode, hpc⟩ := except_bind_ok _ _ _ hpc
  obtain ⟨pv, hpv, hpc⟩ := except_bind_ok _ _ _ hpc
  obtain ⟨colors, hcolors, _⟩ := except_bind_ok _ _ _ hpc
  obtain ⟨es, hes, hmm⟩ := parsePalette_ok _ _ hcolors
  refine ⟨kvs, asDict_ok _ _ _ hkvs, ?_, ?_, ?_, ?_, ckvs, ?_, ?_, es, ?_, ?_⟩
  · rw [getField_ok _ _ _ hdmv]; rfl
  · rw [getField_ok _ _ _ hsmv]; rfl
  · rw [getField_ok _ _ _ hlcv]; rfl
  · rw [getField_ok _ _ _ hfdv]; rfl
  · rw [getField_ok _ _ _ hcov, asDict_ok _ _ _ hckvs]
  · rw [getField_ok _ _ _ hmv, parseMode_ok _ _ hmode]
  · rw [getField_ok _ _ _ hpv, hes]
  · exact mapMColors_shape es colors hmm

/-- C7 witness: the fully valid concrete document is accepted and
satisfies the characterization. -/
theorem config_validation_amended_witness :
    (∃ kvs, cfgYamlWith goodColors = YVal.dict kvs
      ∧ (yLookup kvs "DOCUMENT_MARGINS").isSome = true
      ∧ (yLookup kvs "SECTION_MARGINS").isSome = true
      ∧ (yLookup kvs "LAYOUT_COVER").isSome = true
      ∧ (yLookup kvs "FONT").isSome = true
      ∧ ∃ ckvs, yLookup kvs "COLORS" = some (YVal.dict ckvs)
        ∧ yLookup ckvs "COLOR_MODE" = some (YVal.s "repeating")
        ∧ ∃ es, yLookup ckvs "PALETTE" = some (YVal.list es)
          ∧ ∀ e ∈ es, ∃ a b c3,
              e = YVal.list [YVal.n a, YVal.n b, YVal.n c3])
    ∧ validateConfig cfgYamlNoColors = Except.error "COLORS"
    ∧ validateConfig (cfgYamlWith (YVal.dict [("COLOR_MODE",
        YVal.s "alternating"), ("PALETTE", YVal.list [])]))
      = Except.error "COLOR_MODE"
    ∧ validateConfig (cfgYamlWith (YVal.dict [("COLOR_MODE",
        YVal.s "repeating"),
        ("PALETTE", YVal.list [YVal.list [YVal.n 1, YVal.n 0]])]))
      = Except.error "PALETTE"
    ∧ validateConfig (cfgYamlWith (YVal.dict [("COLOR_MODE",
        YVal.s "repeating"), ("PALETTE", YVal.s "red")]))
      = Except.error "PALETTE"
    ∧ validateConfig (cfgYamlWith goodColors)
      = Except.ok ⟨20, 20, 10, 12, 150, 2, "repeating",
          [(1, 0, 0), (0, 1, 0)]⟩ :=
  config_validation_amended (cfgYamlWith goodColors)
    ⟨20, 20, 10, 12, 150, 2, "repeating", [(1, 0, 0), (0, 1, 0)]⟩ rfl

/-! ## Claims C8 and C9: the broken call sites

These two claims are about Python name resolution, not about values:
which names a module defines, which fields a pydantic model has, which
parameters a function declares and which keywords a call passes.  The
embedding records those name sets as they stand in the sources and
states the resolution rules (`from M import N` requires `N` among the
module's top-level names; a call must pass only declared keywords and
cover every parameter without a default). -/

/-- Top-level names bound in `src/config_manager.py`: its imports and
its class definitions. -/
def configManagerTopLevel : List String :=
  ["yaml", "BaseModel", "Field", "conlist", "Literal",
    "DocumentMargins", "SectionMargins", "LayoutCover", "FontConfig",
    "ColorsConfig", "ConfigSchema", "ConfigManager"]

/-- The field names of `ConfigSchema` (also the keys of the dict
`load_config_file` returns via `model_dump()`). -/
def configSchemaFields : List String :=
  ["DOCUMENT_MARGINS", "SECTION_MARGINS", "LAYOUT_COVER", "FONT",
    "COLORS"]

/-- `from M import N`: succeeds only when `N` is a top-level name. -/
def importFrom (moduleNames : List String) (n : String) :
    Except PyErr Unit :=
  if n ∈ moduleNames then .ok () else .error (.keyError n)

/-- The parameters `PageBuilder.draw_text` declares (beyond `self`). -/
def drawTextParams : List String :=
  ["x", "y", "text", "max_line_width", "section_counter", "font_name",
    "font_size", "background_color", "padding_top", "padding_bottom",
    "spacing_font_correction_factor", "offset_top"]

/-- The `draw_text` parameters without a default value. -/
def drawTextRequiredParams : List String :=
  ["x", "y", "text", "max_line_width", "section_counter"]

/-- The keywords `RecipePDFBuilder._draw_text_block`
(`src/mobile_recipe_build.py` lines 79-90) passes to
`page.draw_text`. -/
def drawTextBlockCallKwargs : List String :=
  ["x", "y", "text", "max_line_width", "font_name", "font_size",
    "background_color", "margin_top", "margin_bottom",
    "font_shift_factor"]

/-- A keyword call succeeds iff every keyword names a declared
parameter and every parameter without a default is covered. -/
def kwargsCallOk (params required kwargs : List String) : Bool :=
  kwargs.all (fun k => k ∈ params) && required.all (fun k => k ∈ kwargs)

/-- C8: `src/mobile_recipe_build.py` opens with
`from src.config_manager import Config`, but `config_manager` defines
no top-level name `Config`, so importing the builder module (and hence
`main`) raises; and even past the import, `RecipePDFBuilder.__init__`
reads `config.io.output_file_name` and
`config.document_margins.left/right`, while neither `io` nor
`document_margins` is among `ConfigSchema`'s fields — which are also
exactly the keys of the dict `load_config_file` returns — so
construction fails before any drawing. -/
theorem recipe_build_import_broken :
    importFrom configManagerTopLevel "Config"
        = Except.error (PyErr.keyError "Config")
    ∧ ("Config" ∈ configManagerTopLevel) = False
    ∧ ("io" ∈ configSchemaFields) = False
    ∧ ("document_margins" ∈ configSchemaFields) = False := by
  refine ⟨rfl, ?_, ?_, ?_⟩ <;> simp [configManagerTopLevel, configSchemaFields]

/-- C9: the `page.draw_text` call inside
`RecipePDFBuilder._draw_text_block` passes keywords `margin_top`,
`margin_bottom` and `font_shift_factor` that `draw_text` does not
declare and omits the required `section_counter`, so the call raises
`TypeError` and no text-bearing section can be rendered through this
path. -/
theorem drawTextBlock_call_mismatch :
    kwargsCallOk drawTextParams drawTextRequiredParams
        drawTextBlockCallKwargs = false
    ∧ ("margin_top" ∈ drawTextParams) = False
    ∧ ("margin_bottom" ∈ drawTextParams) = False
    ∧ ("font_shift_factor" ∈ drawTextParams) = False
    ∧ ("section_counter" ∈ drawTextBlockCallKwargs) = False
    ∧ ("section_counter" ∈ drawTextRequiredParams) = True := by
  refine ⟨?_, ?_, ?_, ?_, ?_, ?_⟩ <;>
    simp [kwargsCallOk, drawTextParams, drawTextRequiredParams,
      drawTextBlockCallKwargs]
